import Mathlib

/-!
Shallow embedding of the multi-view triangulation core of
gtsam/geometry/triangulation.h (DLT triangulation, projection-matrix
construction, optional nonlinear refinement, cheirality check).

The source slice contains only the header: the bodies of
triangulateHomogeneousDLT, triangulateDLT and optimize live in
triangulation.cpp, which is outside the slice, and Pose3 lives in
gtsam/geometry/Pose3.h, also outside the slice.  Those parts are modelled
from the spec, as marked on each definition.  Machine floating point is
modelled by exact rationals.
-/

namespace Gtsam

/-- Image measurement (u, v) in pixel coordinates, spec section 3. -/
abbrev Vec2 := Fin 2 → ℚ

/-- Euclidean 3D point (Point3 in the source). -/
abbrev Vec3 := Fin 3 → ℚ

/-- Homogeneous 4-vector: three Euclidean coordinates (inl) plus the
homogeneous coordinate W (inr). -/
abbrev Vec4 := Fin 3 ⊕ Fin 1 → ℚ

/-- Rotation or intrinsic 3x3 matrix. -/
abbrev Mat3 := Matrix (Fin 3) (Fin 3) ℚ

/-- Projection matrix shape (Matrix34 in the source), columns indexed like
a homogeneous 4-vector. -/
abbrev Mat34 := Matrix (Fin 3) (Fin 3 ⊕ Fin 1) ℚ

/-- Rigid-transform 4x4 matrix shape. -/
abbrev Mat4 := Matrix (Fin 3 ⊕ Fin 1) (Fin 3 ⊕ Fin 1) ℚ

/-- Column matrix of a 3-vector, used to assemble block matrices. -/
def colVec (x : Vec3) : Matrix (Fin 3) (Fin 1) ℚ :=
  Matrix.of fun i _ => x i

/-- Modelled from the spec: gtsam Pose3 (gtsam/geometry/Pose3.h, outside
the source slice).  A rigid transform with rotation R and translation t,
interpreted as the camera-to-world transform (spec section 3). -/
structure Pose3 where
  R : Mat3
  t : Vec3
deriving Inhabited

/-- Modelled from the spec: Pose3::matrix(), the 4x4 homogeneous matrix
[[R, t], [0, 1]] of the transform. -/
def Pose3.matrix (p : Pose3) : Mat4 :=
  Matrix.fromBlocks p.R (colVec p.t) 0 1

/-- Modelled from the spec: Pose3::inverse(), the inverse rigid transform
(R^T, -R^T t). -/
def Pose3.inverse (p : Pose3) : Pose3 :=
  ⟨p.R.transpose, -(p.R.transpose.mulVec p.t)⟩

/-- Modelled from the spec: Pose3::transform_to(x), the world-to-camera
map x_cam = R^T (x - t) (spec sections 3 and 4.4). -/
def Pose3.transform_to (p : Pose3) (x : Vec3) : Vec3 :=
  p.R.transpose.mulVec (x - p.t)

/-- Modelled from the spec: the pinhole calibration capability; only K()
is consumed by this slice (spec section 3). -/
structure Calibration where
  K : Mat3
deriving Inhabited

/-- Camera with its own pose and calibration (PinholeCamera in the
source). -/
structure PinholeCamera where
  pose : Pose3
  calibration : Calibration
deriving Inhabited

/-- Top 3x4 block of a 4x4 matrix: .block<3,4>(0,0) in the source. -/
def block34 (M : Mat4) : Mat34 :=
  Matrix.of fun i j => M (Sum.inl i) j

/-- CameraProjectionMatrix functor, triangulation.h lines 184-194:
P = K_ * (pose.inverse().matrix()).block<3,4>(0,0). -/
def CameraProjectionMatrix (calibration : Calibration) : Pose3 → Mat34 :=
  fun pose => calibration.K * block34 pose.inverse.matrix

/-- Homogeneous coordinates (x, 1) of a Euclidean point. -/
def homogenize (x : Vec3) : Vec4 :=
  Sum.elim x ![1]

theorem pose_inverse_matrix_mul (p : Pose3) (hR : p.R.transpose * p.R = 1) :
    p.inverse.matrix * p.matrix = 1 := by
  have hcol : p.R.transpose * colVec p.t = colVec (p.R.transpose.mulVec p.t) := by
    ext i j
    simp [colVec, Matrix.mul_apply, Matrix.mulVec, Matrix.dotProduct,
      Fin.sum_univ_three]
  have hneg : colVec (-(p.R.transpose.mulVec p.t)) =
      -(colVec (p.R.transpose.mulVec p.t)) := by
    ext i j
    simp [colVec]
  show Matrix.fromBlocks p.inverse.R (colVec p.inverse.t) 0 1 *
      Matrix.fromBlocks p.R (colVec p.t) 0 1 = 1
  rw [Matrix.fromBlocks_multiply]
  show Matrix.fromBlocks
      (p.R.transpose * p.R + colVec (-(p.R.transpose.mulVec p.t)) * 0)
      (p.R.transpose * colVec p.t + colVec (-(p.R.transpose.mulVec p.t)) * 1)
      (0 * p.R + 1 * 0) (0 * colVec p.t + 1 * 1) = 1
  rw [hR, hcol, hneg]
  simp [Matrix.fromBlocks_one]

/-- Error kinds of a triangulation call.  Underconstrained and Cheirality
are the typed failures of the spec (section 7); OutOfRange models the
std::out_of_range raised by measurements.at(i) when there are fewer
measurements than projection matrices. -/
inductive TriError where
  | Underconstrained
  | Cheirality
  | OutOfRange
deriving DecidableEq

/-- Modelled from the spec: the row stacking of the DLT system (spec
section 4.2; the loop body of triangulateHomogeneousDLT in
triangulation.cpp, outside the slice).  Each measurement (u, v) with
projection matrix P contributes the two rows u*p3 - p1 and v*p3 - p2,
where pk is the k-th row of P; measurements.at(i) raises out_of_range
when i is past the end. -/
def dltRows : List Mat34 → List Vec2 → Except TriError (List Vec4)
  | [], _ => .ok []
  | _ :: _, [] => .error .OutOfRange
  | P :: ps, z :: zs =>
    match dltRows ps zs with
    | .error e => .error e
    | .ok rest =>
      .ok ((fun j => z 0 * P 2 j - P 0 j) :: (fun j => z 1 * P 2 j - P 1 j) :: rest)

/-- Dot product of two homogeneous 4-vectors. -/
def dotV (a b : Vec4) : ℚ :=
  ∑ j, a j * b j

/-- Sum of squares of a list of scalars. -/
def sumSq (xs : List ℚ) : ℚ :=
  (xs.map fun r => r * r).sum

/-- Modelled from the spec: the outcome of the full SVD of the stacked
2m x 4 DLT matrix, as delivered by the linear-algebra substrate (spec
section 6).  sv are the four singular values in descending order, v the
right singular vector associated with the smallest one. -/
structure SVDResult where
  sv : Fin 4 → ℚ
  v : Vec4

/-- Modelled from the spec: the properties of a full SVD of the matrix
with the given rows that the triangulation core relies on: singular
values descending and nonnegative, at most min(2m, 4) of them nonzero,
and v a unit-norm vector whose residual norm on the rows equals the
smallest singular value (spec section 4.2). -/
def SVDResult.valid (s : SVDResult) (rows : List Vec4) : Prop :=
  s.sv 1 ≤ s.sv 0 ∧ s.sv 2 ≤ s.sv 1 ∧ s.sv 3 ≤ s.sv 2 ∧ 0 ≤ s.sv 3 ∧
  (rows.length ≤ 0 → s.sv 0 = 0) ∧ (rows.length ≤ 1 → s.sv 1 = 0) ∧
  (rows.length ≤ 2 → s.sv 2 = 0) ∧ (rows.length ≤ 3 → s.sv 3 = 0) ∧
  dotV s.v s.v = 1 ∧
  sumSq (rows.map fun r => dotV r s.v) = s.sv 3 * s.sv 3

/-- Shape of the SVD substrate consumed by the DLT solver. -/
abbrev SVDFun := List Vec4 → SVDResult

/-- Modelled from the spec: triangulateHomogeneousDLT (declared at
triangulation.h lines 52-54, body in triangulation.cpp outside the
slice).  Stacks the DLT rows, runs the SVD substrate, signals
Underconstrained when the third singular value is below rank_tol, and
otherwise returns the right singular vector associated with the smallest
singular value (spec section 4.2). -/
def triangulateHomogeneousDLT (svdf : SVDFun) (projection_matrices : List Mat34)
    (measurements : List Vec2) (rank_tol : ℚ) : Except TriError Vec4 :=
  match dltRows projection_matrices measurements with
  | .error e => .error e
  | .ok rows =>
    let s := svdf rows
    if s.sv 2 < rank_tol then .error .Underconstrained else .ok s.v

/-- Modelled from the spec: dehomogenization (spec section 4.3): return
(X/W, Y/W, Z/W), signalling Underconstrained when |W| is below the floor
rank_tol * norm(X, Y, Z); the comparison is expressed with squares to
stay inside the rationals. -/
def dehomogenize (v : Vec4) (rank_tol : ℚ) : Except TriError Vec3 :=
  if v (Sum.inr 0) * v (Sum.inr 0) <
      rank_tol * rank_tol * (∑ i : Fin 3, v (Sum.inl i) * v (Sum.inl i)) then
    .error .Underconstrained
  else
    .ok fun i => v (Sum.inl i) / v (Sum.inr 0)

/-- Modelled from the spec: triangulateDLT (declared at triangulation.h
lines 63-65, body in triangulation.cpp outside the slice): run the
homogeneous DLT, then dehomogenize (spec sections 4.2 and 4.3). -/
def triangulateDLT (svdf : SVDFun) (projection_matrices : List Mat34)
    (measurements : List Vec2) (rank_tol : ℚ) : Except TriError Vec3 :=
  match triangulateHomogeneousDLT svdf projection_matrices measurements rank_tol with
  | .error e => .error e
  | .ok v => dehomogenize v rank_tol

theorem dltRows_length : ∀ (ps : List Mat34) (ms : List Vec2) (rows : List Vec4),
    dltRows ps ms = .ok rows → rows.length = 2 * ps.length
  | [], _, rows, h => by
    simp [dltRows] at h
    simp [← h]
  | _ :: _, [], rows, h => by
    simp [dltRows] at h
  | P :: ps, z :: zs, rows, h => by
    rw [dltRows] at h
    cases hrec : dltRows ps zs with
    | error e => rw [hrec] at h; exact absurd h (by simp)
    | ok rest =>
      rw [hrec] at h
      have hlen := dltRows_length ps zs rest hrec
      simp at h
      simp [← h, hlen]
      ring

/-- Key for a variable (gtsam Symbol, a character plus an index). -/
abbrev Key := Char × ℕ

/-- Landmark key Symbol with character p and index 0, used by
triangulateNonlinear (triangulation.h lines 151 and 172). -/
def pKey : Key := ('p', 0)

/-- Noise models constructed by triangulationGraph: the isotropic unit
2-D model and the 6-D isotropic prior model with sigma 1e-6. -/
inductive NoiseModel where
  | unit (dim : ℕ)
  | isotropicSigma (dim : ℕ) (sigma : ℚ)

/-- Factors that triangulationGraph can place into the graph: a
TriangulationFactor (camera, measurement, noise model, landmark key) or
a PriorFactor (key, noise model). -/
inductive Factor where
  | triangulation (camera : PinholeCamera) (measurement : Vec2)
      (model : NoiseModel) (key : Key)
  | prior (key : Key) (model : NoiseModel)

instance : Inhabited Factor := ⟨.prior pKey (.unit 0)⟩

/-- Values map of the nonlinear framework, restricted to the single
landmark variable this slice uses: a list of key/point bindings. -/
abbrev Values := List (Key × Vec3)

/-- triangulationGraph (shared calibration overload), triangulation.h
lines 77-94: insert the initial landmark value, then push one
TriangulationFactor per measurement, pairing measurement i with
poses[i] and the shared calibration, weighted by the unit 2-D noise
model.  The 6-D prior model is constructed but never attached. -/
def triangulationGraph (poses : List Pose3) (sharedCal : Calibration)
    (measurements : List Vec2) (landmarkKey : Key) (initialEstimate : Vec3) :
    List Factor × Values :=
  let values : Values := [(landmarkKey, initialEstimate)]
  let unit2 : NoiseModel := .unit 2
  let _prior_model : NoiseModel := .isotropicSigma 6 (1 / 1000000)
  let graph := (List.range measurements.length).map fun i =>
    Factor.triangulation ⟨poses.getD i default, sharedCal⟩
      (measurements.getD i default) unit2 landmarkKey
  (graph, values)

/-- triangulationGraph (per-camera overload), triangulation.h lines
105-121: same as the shared overload but factor i carries cameras[i]. -/
def triangulationGraphCam (cameras : List PinholeCamera)
    (measurements : List Vec2) (landmarkKey : Key) (initialEstimate : Vec3) :
    List Factor × Values :=
  let values : Values := [(landmarkKey, initialEstimate)]
  let unit2 : NoiseModel := .unit 2
  let _prior_model : NoiseModel := .isotropicSigma 6 (1 / 1000000)
  let graph := (List.range measurements.length).map fun i =>
    Factor.triangulation (cameras.getD i default)
      (measurements.getD i default) unit2 landmarkKey
  (graph, values)

/-- Shape of the external nonlinear-least-squares routine behind
optimize (declared at triangulation.h lines 131-132, body in
triangulation.cpp outside the slice): it receives the factor graph, the
initial values and the landmark key and returns the refined point or a
surfaced failure (spec sections 4.5 and 6). -/
abbrev Optimizer := List Factor → Values → Key → Except TriError Vec3

/-- triangulateNonlinear (shared calibration overload), triangulation.h
lines 142-154: build the graph and values with landmark key Symbol p 0
and hand them to optimize. -/
def triangulateNonlinear (opt : Optimizer) (poses : List Pose3)
    (sharedCal : Calibration) (measurements : List Vec2)
    (initialEstimate : Vec3) : Except TriError Vec3 :=
  let gv := triangulationGraph poses sharedCal measurements pKey initialEstimate
  opt gv.1 gv.2 pKey

/-- triangulateNonlinear (per-camera overload), triangulation.h lines
163-175. -/
def triangulateNonlinearCam (opt : Optimizer) (cameras : List PinholeCamera)
    (measurements : List Vec2) (initialEstimate : Vec3) : Except TriError Vec3 :=
  let gv := triangulationGraphCam cameras measurements pKey initialEstimate
  opt gv.1 gv.2 pKey

/-- triangulatePoint3 (shared calibration overload), triangulation.h
lines 208-241.  The assert on equal sizes is a no-op under NDEBUG and is
not modelled as a signal; throwCheirality models the compile-time flag
GTSAM_THROW_CHEIRALITY_EXCEPTION. -/
def triangulatePoint3 (svdf : SVDFun) (opt : Optimizer)
    (throwCheirality : Bool) (poses : List Pose3) (sharedCal : Calibration)
    (measurements : List Vec2) (rank_tol : ℚ) (optimizeFlag : Bool) :
    Except TriError Vec3 :=
  if poses.length < 2 then .error .Underconstrained
  else
    let projection_matrices := poses.map fun pose =>
      CameraProjectionMatrix sharedCal pose
    match triangulateDLT svdf projection_matrices measurements rank_tol with
    | .error e => .error e
    | .ok point0 =>
      match (if optimizeFlag then
          triangulateNonlinear opt poses sharedCal measurements point0
        else .ok point0) with
      | .error e => .error e
      | .ok point =>
        if throwCheirality &&
            poses.any (fun pose => decide (pose.transform_to point 2 ≤ 0)) then
          .error .Cheirality
        else .ok point

/-- triangulatePoint3 (per-camera overload), triangulation.h lines
255-290. -/
def triangulatePoint3Cam (svdf : SVDFun) (opt : Optimizer)
    (throwCheirality : Bool) (cameras : List PinholeCamera)
    (measurements : List Vec2) (rank_tol : ℚ) (optimizeFlag : Bool) :
    Except TriError Vec3 :=
  if cameras.length < 2 then .error .Underconstrained
  else
    let projection_matrices := cameras.map fun camera =>
      CameraProjectionMatrix camera.calibration camera.pose
    match triangulateDLT svdf projection_matrices measurements rank_tol with
    | .error e => .error e
    | .ok point0 =>
      match (if optimizeFlag then
          triangulateNonlinearCam opt cameras measurements point0
        else .ok point0) with
      | .error e => .error e
      | .ok point =>
        if throwCheirality &&
            cameras.any (fun camera =>
              decide (camera.pose.transform_to point 2 ≤ 0)) then
          .error .Cheirality
        else .ok point

/-- Identity 3x3 matrix written entrywise, to keep fixture evaluation by
simp straightforward. -/
def idMat3 : Mat3 := !![1, 0, 0; 0, 1, 0; 0, 0, 1]

/-- Identity calibration K = I. -/
def idCal : Calibration := ⟨idMat3⟩

/-- Camera pose at the origin with identity rotation. -/
def poseA : Pose3 := ⟨idMat3, ![0, 0, 0]⟩

/-- Camera pose translated by (1, 0, 0) with identity rotation. -/
def poseB : Pose3 := ⟨idMat3, ![1, 0, 0]⟩

/-- Exact projection of the point (1/4, 1/2, 1/2) in camera A. -/
def mA : Vec2 := ![1/2, 1]

/-- Exact projection of the point (1/4, 1/2, 1/2) in camera B. -/
def mB : Vec2 := ![-3/2, 1]

/-- Unit null vector of the stacked DLT matrix of the two cameras above:
(1, 2, 2, 4)/5. -/
def vStar : Vec4 := Sum.elim ![1/5, 2/5, 2/5] ![4/5]

/-- Concrete SVD substrate consistent with the two-camera fixture. -/
def svdTwo : SVDFun := fun _ => ⟨![1, 1, 1, 0], vStar⟩

/-- Triangulated point of the two-camera fixture. -/
def cPoint : Vec3 := ![1/4, 1/2, 1/2]

/-- Default rank tolerance 1e-9. -/
def tol9 : ℚ := 1 / 1000000000

/-- Stacked DLT rows of the two-camera fixture. -/
def rowsTwo : List Vec4 :=
  [Sum.elim ![-1, 0, 1/2] ![0], Sum.elim ![0, -1, 1] ![0],
   Sum.elim ![-1, 0, -3/2] ![1], Sum.elim ![0, -1, 1] ![0]]

/-- C1: the homogeneous DLT signals Underconstrained exactly when the third
singular value of the stacked 2m x 4 matrix is below rank_tol or m < 2;
otherwise it returns the unit-norm right singular vector associated with the
smallest singular value; and triangulateDLT signals Underconstrained in each
of those failing cases. -/
theorem triangulateHomogeneousDLT_underconstrained_iff
    (svdf : SVDFun) (projs : List Mat34) (ms : List Vec2) (rank_tol : ℚ)
    (rows : List Vec4) (hrows : dltRows projs ms = .ok rows)
    (hvalid : (svdf rows).valid rows) (htol : 0 < rank_tol) :
    (triangulateHomogeneousDLT svdf projs ms rank_tol = .error .Underconstrained ↔
      ((svdf rows).sv 2 < rank_tol ∨ projs.length < 2)) ∧
    (¬ (svdf rows).sv 2 < rank_tol →
      triangulateHomogeneousDLT svdf projs ms rank_tol = .ok (svdf rows).v ∧
      dotV (svdf rows).v (svdf rows).v = 1) ∧
    (((svdf rows).sv 2 < rank_tol ∨ projs.length < 2) →
      triangulateDLT svdf projs ms rank_tol = .error .Underconstrained) := by
  have hlen := dltRows_length projs ms rows hrows
  have hm2 : projs.length < 2 → (svdf rows).sv 2 < rank_tol := by
    intro h
    have hr2 : rows.length ≤ 2 := by omega
    have h0 := hvalid.2.2.2.2.2.2.1 hr2
    rw [h0]
    exact htol
  by_cases hc : (svdf rows).sv 2 < rank_tol
  · refine ⟨?_, fun hnc => absurd hc hnc, fun _ => ?_⟩
    · simp [triangulateHomogeneousDLT, hrows, hc]
    · simp [triangulateDLT, triangulateHomogeneousDLT, hrows, hc]
  · have hnm : ¬ projs.length < 2 := fun h => hc (hm2 h)
    refine ⟨?_, fun _ => ⟨?_, hvalid.2.2.2.2.2.2.2.2.1⟩, ?_⟩
    · simp [triangulateHomogeneousDLT, hrows, hc, hnm]
    · simp [triangulateHomogeneousDLT, hrows, hc]
    · intro h
      rcases h with h | h
      · exact absurd h hc
      · exact absurd h hnm

/-- Witness for C1 at the two-camera fixture. -/
theorem triangulateHomogeneousDLT_underconstrained_iff_witness :
    (triangulateHomogeneousDLT svdTwo
        ([poseA, poseB].map (CameraProjectionMatrix idCal)) [mA, mB] tol9 =
        .error .Underconstrained ↔
      ((svdTwo rowsTwo).sv 2 < tol9 ∨
        ([poseA, poseB].map (CameraProjectionMatrix idCal)).length < 2)) ∧
    (¬ (svdTwo rowsTwo).sv 2 < tol9 →
      triangulateHomogeneousDLT svdTwo
        ([poseA, poseB].map (CameraProjectionMatrix idCal)) [mA, mB] tol9 =
        .ok (svdTwo rowsTwo).v ∧
      dotV (svdTwo rowsTwo).v (svdTwo rowsTwo).v = 1) ∧
    (((svdTwo rowsTwo).sv 2 < tol9 ∨
        ([poseA, poseB].map (CameraProjectionMatrix idCal)).length < 2) →
      triangulateDLT svdTwo
        ([poseA, poseB].map (CameraProjectionMatrix idCal)) [mA, mB] tol9 =
        .error .Underconstrained) :=
  triangulateHomogeneousDLT_underconstrained_iff svdTwo
    ([poseA, poseB].map (CameraProjectionMatrix idCal)) [mA, mB] tol9 rowsTwo
    (by norm_num [dltRows, rowsTwo, mA, mB, funext_iff, Sum.forall, Fin.forall_fin_succ,
      CameraProjectionMatrix, idCal, idMat3, poseA, poseB, block34, Pose3.inverse,
      Pose3.matrix, Matrix.mul_apply, Fintype.sum_sum_type, Fin.sum_univ_three,
      Matrix.transpose_apply, Matrix.fromBlocks, colVec, Matrix.mulVec, Matrix.dotProduct])
    (by norm_num [SVDResult.valid, svdTwo, rowsTwo, vStar, dotV, sumSq,
      Fin.sum_univ_three, Fintype.sum_sum_type])
    (by norm_num [tol9])

/-- C2: the projection-matrix builder returns K times the first three rows of
the inverse of the 4x4 camera-to-world matrix M of the pose. -/
theorem cameraProjectionMatrix_eq_K_mul_inv_block (cal : Calibration) (pose : Pose3)
    (hR : pose.R.transpose * pose.R = 1) :
    CameraProjectionMatrix cal pose = cal.K * block34 (pose.matrix)⁻¹ := by
  rw [Matrix.inv_eq_left_inv (pose_inverse_matrix_mul pose hR)]
  rfl

/-- Rotation by 90 degrees around the z axis. -/
def rotZ : Mat3 := !![0, -1, 0; 1, 0, 0; 0, 0, 1]

/-- Calibration with focal length 500 and principal point (320, 240). -/
def calS5 : Calibration := ⟨!![500, 0, 320; 0, 500, 240; 0, 0, 1]⟩

/-- Rotated and translated camera pose. -/
def poseC : Pose3 := ⟨rotZ, ![3, -2, 7]⟩

/-- Witness for C2 at a rotated pose with a nontrivial calibration. -/
theorem cameraProjectionMatrix_eq_K_mul_inv_block_witness :
    CameraProjectionMatrix calS5 poseC = calS5.K * block34 (poseC.matrix)⁻¹ :=
  cameraProjectionMatrix_eq_K_mul_inv_block calS5 poseC
    (by norm_num [poseC, rotZ, Matrix.one_fin_three, ← Matrix.ext_iff,
      Fin.forall_fin_succ, Matrix.mul_apply, Fin.sum_univ_three, Matrix.transpose_apply,
      Matrix.vecHead, Matrix.vecTail])

/-- C4: the depth tested by the cheirality checker equals the depth implied
by the projection-matrix builder convention: the z-component of
pose.transform_to x is the third component of the first three rows of
pose.inverse().matrix() applied to the homogeneous coordinates of x. -/
theorem transform_to_z_eq_projection_depth (pose : Pose3) (x : Vec3) :
    (block34 pose.inverse.matrix).mulVec (homogenize x) 2 = pose.transform_to x 2 := by
  simp [block34, Pose3.inverse, Pose3.matrix, Pose3.transform_to, homogenize,
    Matrix.mulVec, Matrix.dotProduct, Fintype.sum_sum_type, Matrix.fromBlocks,
    colVec, Matrix.transpose_apply, Fin.sum_univ_three]
  ring

/-- Optimizer substrate that always succeeds with a constant point. -/
def optConst : Optimizer := fun _ _ _ => .ok ![0, 0, 7]

/-- Optimizer substrate that reports a singularity. -/
def optFail : Optimizer := fun _ _ _ => .error .Underconstrained

/-- C5: with fewer than two poses (or fewer than two cameras), both
triangulatePoint3 overloads signal Underconstrained for every SVD substrate
and every optimizer, i.e. without consulting the projection matrices, the
DLT or the refiner. -/
theorem triangulatePoint3_underconstrained_of_short
    (poses : List Pose3) (cameras : List PinholeCamera) (sharedCal : Calibration)
    (ms ms2 : List Vec2) (rank_tol rank_tol2 : ℚ)
    (svdf : SVDFun) (opt : Optimizer) (flag optb flag2 optb2 : Bool)
    (h1 : poses.length < 2) (h2 : cameras.length < 2) :
    triangulatePoint3 svdf opt flag poses sharedCal ms rank_tol optb =
      .error .Underconstrained ∧
    triangulatePoint3Cam svdf opt flag2 cameras ms2 rank_tol2 optb2 =
      .error .Underconstrained :=
  ⟨by simp [triangulatePoint3, h1], by simp [triangulatePoint3Cam, h2]⟩

/-- Witness for C5 at one-element inputs. -/
theorem triangulatePoint3_underconstrained_of_short_witness :
    triangulatePoint3 svdTwo optFail true [poseA] idCal [mA] tol9 true =
      .error .Underconstrained ∧
    triangulatePoint3Cam svdTwo optFail false [⟨poseB, idCal⟩] [mB] tol9 true =
      .error .Underconstrained :=
  triangulatePoint3_underconstrained_of_short [poseA] [⟨poseB, idCal⟩] idCal
    [mA] [mB] tol9 tol9 svdTwo optFail true true false true
    (by norm_num) (by norm_num)

/-- C6: with the optimize flag set, the initial Values handed to the external
optimizer bind the landmark key to exactly the triangulateDLT result, and the
call returns the optimizer output for that key (stated with cheirality
enforcement disabled so the optimizer output is the final result). -/
theorem triangulatePoint3_optimize_seeded_with_dlt
    (svdf : SVDFun) (opt : Optimizer) (poses : List Pose3)
    (sharedCal : Calibration) (ms : List Vec2) (rank_tol : ℚ) (p0 : Vec3)
    (hlen : ¬ poses.length < 2)
    (hdlt : triangulateDLT svdf
      (poses.map fun pose => CameraProjectionMatrix sharedCal pose) ms rank_tol =
      .ok p0) :
    (triangulationGraph poses sharedCal ms pKey p0).2 = [(pKey, p0)] ∧
    triangulatePoint3 svdf opt false poses sharedCal ms rank_tol true =
      opt (triangulationGraph poses sharedCal ms pKey p0).1 [(pKey, p0)] pKey := by
  have hval : (triangulationGraph poses sharedCal ms pKey p0).2 = [(pKey, p0)] := rfl
  refine ⟨hval, ?_⟩
  have hnl : triangulateNonlinear opt poses sharedCal ms p0 =
      opt (triangulationGraph poses sharedCal ms pKey p0).1 [(pKey, p0)] pKey := by
    rw [← hval]
    rfl
  simp only [triangulatePoint3, if_neg hlen, hdlt, if_true, hnl]
  cases opt (triangulationGraph poses sharedCal ms pKey p0).1 [(pKey, p0)] pKey <;>
    simp

/-- Witness for C6 at the two-camera fixture. -/
theorem triangulatePoint3_optimize_seeded_with_dlt_witness :
    (triangulationGraph [poseA, poseB] idCal [mA, mB] pKey cPoint).2 =
      [(pKey, cPoint)] ∧
    triangulatePoint3 svdTwo optConst false [poseA, poseB] idCal [mA, mB] tol9 true =
      optConst (triangulationGraph [poseA, poseB] idCal [mA, mB] pKey cPoint).1
        [(pKey, cPoint)] pKey :=
  triangulatePoint3_optimize_seeded_with_dlt svdTwo optConst [poseA, poseB] idCal
    [mA, mB] tol9 cPoint (by norm_num)
    (by norm_num [triangulateDLT, triangulateHomogeneousDLT, dltRows, svdTwo,
      dehomogenize, tol9, vStar, cPoint, Fin.sum_univ_three, funext_iff,
      Fin.forall_fin_succ, CameraProjectionMatrix, idCal, idMat3, poseA, poseB,
      block34, Pose3.inverse, Pose3.matrix, Matrix.mul_apply, Fintype.sum_sum_type,
      Matrix.transpose_apply, Matrix.mulVec, Matrix.dotProduct, Matrix.fromBlocks,
      colVec, mA, mB])

/-- C3: relative to the result with cheirality enforcement disabled (the
point is returned regardless of depth), enabling enforcement signals
Cheirality exactly when some contributing camera sees the recovered point at
depth at most zero, for both overloads. -/
theorem triangulatePoint3_cheirality_spec
    (svdf : SVDFun) (opt : Optimizer) (poses : List Pose3)
    (sharedCal : Calibration) (cameras : List PinholeCamera)
    (ms ms2 : List Vec2) (rank_tol rank_tol2 : ℚ) (optb optb2 : Bool)
    (p q : Vec3)
    (hok : triangulatePoint3 svdf opt false poses sharedCal ms rank_tol optb =
      .ok p)
    (hokC : triangulatePoint3Cam svdf opt false cameras ms2 rank_tol2 optb2 =
      .ok q) :
    (triangulatePoint3 svdf opt true poses sharedCal ms rank_tol optb =
      if poses.any (fun pose => decide (pose.transform_to p 2 ≤ 0)) then
        .error .Cheirality
      else .ok p) ∧
    (triangulatePoint3Cam svdf opt true cameras ms2 rank_tol2 optb2 =
      if cameras.any (fun c => decide (c.pose.transform_to q 2 ≤ 0)) then
        .error .Cheirality
      else .ok q) := by
  constructor
  · by_cases hlen : poses.length < 2
    · simp [triangulatePoint3, hlen] at hok
    · cases hdlt : triangulateDLT svdf
          (poses.map fun pose => CameraProjectionMatrix sharedCal pose) ms rank_tol with
      | error e => simp [triangulatePoint3, hlen, hdlt] at hok
      | ok point0 =>
        cases href : (if optb then triangulateNonlinear opt poses sharedCal ms point0
            else .ok point0) with
        | error e => simp [triangulatePoint3, hlen, hdlt, href] at hok
        | ok point =>
          have hp : point = p := by
            simpa [triangulatePoint3, hlen, hdlt, href] using hok
          subst hp
          simp [triangulatePoint3, hlen, hdlt, href]
  · by_cases hlen : cameras.length < 2
    · simp [triangulatePoint3Cam, hlen] at hokC
    · cases hdlt : triangulateDLT svdf
          (cameras.map fun camera =>
            CameraProjectionMatrix camera.calibration camera.pose) ms2 rank_tol2 with
      | error e => simp [triangulatePoint3Cam, hlen, hdlt] at hokC
      | ok point0 =>
        cases href : (if optb2 then triangulateNonlinearCam opt cameras ms2 point0
            else .ok point0) with
        | error e => simp [triangulatePoint3Cam, hlen, hdlt, href] at hokC
        | ok point =>
          have hp : point = q := by
            simpa [triangulatePoint3Cam, hlen, hdlt, href] using hokC
          subst hp
          simp [triangulatePoint3Cam, hlen, hdlt, href]

/-- Two-camera fixture for the per-camera overload, sharing idCal. -/
def camsTwo : List PinholeCamera := [⟨poseA, idCal⟩, ⟨poseB, idCal⟩]

/-- Witness for C3 at the two-camera fixture, for both overloads. -/
theorem triangulatePoint3_cheirality_spec_witness :
    (triangulatePoint3 svdTwo optConst true [poseA, poseB] idCal [mA, mB] tol9 false =
      if [poseA, poseB].any (fun pose => decide (pose.transform_to cPoint 2 ≤ 0)) then
        .error .Cheirality
      else .ok cPoint) ∧
    (triangulatePoint3Cam svdTwo optConst true camsTwo [mA, mB] tol9 false =
      if camsTwo.any (fun c => decide (c.pose.transform_to cPoint 2 ≤ 0)) then
        .error .Cheirality
      else .ok cPoint) :=
  triangulatePoint3_cheirality_spec svdTwo optConst [poseA, poseB] idCal camsTwo
    [mA, mB] [mA, mB] tol9 tol9 false false cPoint cPoint
    (by norm_num [triangulatePoint3, triangulateDLT, triangulateHomogeneousDLT,
      dltRows, svdTwo, dehomogenize, tol9, vStar, cPoint, Fin.sum_univ_three,
      funext_iff, Fin.forall_fin_succ, CameraProjectionMatrix, idCal, idMat3,
      poseA, poseB, block34, Pose3.inverse, Pose3.matrix, Matrix.mul_apply,
      Fintype.sum_sum_type, Matrix.transpose_apply, Matrix.mulVec,
      Matrix.dotProduct, Matrix.fromBlocks, colVec, mA, mB])
    (by norm_num [triangulatePoint3Cam, triangulateDLT, triangulateHomogeneousDLT,
      dltRows, svdTwo, dehomogenize, tol9, vStar, cPoint, Fin.sum_univ_three,
      funext_iff, Fin.forall_fin_succ, CameraProjectionMatrix, idCal, idMat3,
      poseA, poseB, camsTwo, block34, Pose3.inverse, Pose3.matrix, Matrix.mul_apply,
      Fintype.sum_sum_type, Matrix.transpose_apply, Matrix.mulVec,
      Matrix.dotProduct, Matrix.fromBlocks, colVec, mA, mB])

/-- C8 counterexample: a call with two poses and three measurements (sizes
differ) returns a triangulated point instead of signalling
Underconstrained; the equal-size precondition is only an assert in the
source, not an Underconstrained signal. -/
theorem length_mismatch_not_underconstrained_cex :
    ([poseA, poseB] : List Pose3).length ≠ ([mA, mB, mA] : List Vec2).length ∧
    triangulatePoint3 svdTwo optConst false [poseA, poseB] idCal [mA, mB, mA]
      tol9 false = .ok cPoint ∧
    triangulatePoint3 svdTwo optConst false [poseA, poseB] idCal [mA, mB, mA]
      tol9 false ≠ .error .Underconstrained := by
  have hrun : triangulatePoint3 svdTwo optConst false [poseA, poseB] idCal
      [mA, mB, mA] tol9 false = .ok cPoint := by
    norm_num [triangulatePoint3, triangulateDLT, triangulateHomogeneousDLT,
      dltRows, svdTwo, dehomogenize, tol9, vStar, cPoint, Fin.sum_univ_three,
      funext_iff, Fin.forall_fin_succ, CameraProjectionMatrix, idCal, idMat3,
      poseA, poseB, block34, Pose3.inverse, Pose3.matrix, Matrix.mul_apply,
      Fintype.sum_sum_type, Matrix.transpose_apply, Matrix.mulVec,
      Matrix.dotProduct, Matrix.fromBlocks, colVec, mA, mB]
  exact ⟨by norm_num, hrun, by rw [hrun]; exact fun h => by cases h⟩

/-- C8 amended: triangulatePoint3 signals Underconstrained when the number of
poses (or of cameras) is below two; a size mismatch with the measurement list
is guarded only by an assert and does not by itself signal
Underconstrained. -/
theorem triangulatePoint3_underconstrained_of_lt_two
    (svdf : SVDFun) (opt : Optimizer) (flag flag2 optb optb2 : Bool)
    (poses : List Pose3) (cameras : List PinholeCamera) (sharedCal : Calibration)
    (ms ms2 : List Vec2) (rank_tol rank_tol2 : ℚ)
    (h1 : poses.length < 2) (h2 : cameras.length < 2) :
    triangulatePoint3 svdf opt flag poses sharedCal ms rank_tol optb =
      .error .Underconstrained ∧
    triangulatePoint3Cam svdf opt flag2 cameras ms2 rank_tol2 optb2 =
      .error .Underconstrained :=
  ⟨by simp [triangulatePoint3, h1], by simp [triangulatePoint3Cam, h2]⟩

/-- Witness for the amended C8 at empty and singleton inputs. -/
theorem triangulatePoint3_underconstrained_of_lt_two_witness :
    triangulatePoint3 svdTwo optConst true [] idCal [mA, mB] tol9 true =
      .error .Underconstrained ∧
    triangulatePoint3Cam svdTwo optConst true [⟨poseC, calS5⟩] [mA] tol9 true =
      .error .Underconstrained :=
  triangulatePoint3_underconstrained_of_lt_two svdTwo optConst true true true true
    [] [⟨poseC, calS5⟩] idCal [mA, mB] [mA] tol9 tol9 (by norm_num) (by norm_num)

theorem range_map_getD {α : Type} (d : α) (n i : ℕ) (f : ℕ → α) (h : i < n) :
    ((List.range n).map f).getD i d = f i := by
  rw [List.getD_eq_getElem?_getD, List.getElem?_map, List.getElem?_range h]
  rfl

theorem map_getD_of_lt {α β : Type} (l : List α) (g : α → β) (d : β) (d2 : α)
    (i : ℕ) (h : i < l.length) : (l.map g).getD i d = g (l.getD i d2) := by
  rw [List.getD_eq_getElem?_getD, List.getD_eq_getElem?_getD, List.getElem?_map,
    List.getElem?_eq_getElem h]
  rfl

/-- C9: both triangulationGraph overloads return exactly one
TriangulationFactor per measurement, pairing measurement i with camera i in
input order, each weighted by the isotropic unit 2-D noise model; no prior
factor is attached to the landmark; and the returned Values hold exactly the
single landmark binding to the initial estimate. -/
theorem triangulationGraph_spec
    (poses : List Pose3) (sharedCal : Calibration) (cameras : List PinholeCamera)
    (ms ms2 : List Vec2) (key key2 : Key) (init init2 : Vec3) :
    (triangulationGraph poses sharedCal ms key init).1.length = ms.length ∧
    (∀ i, i < ms.length →
      (triangulationGraph poses sharedCal ms key init).1.getD i default =
        .triangulation ⟨poses.getD i default, sharedCal⟩ (ms.getD i default)
          (.unit 2) key) ∧
    (∀ f ∈ (triangulationGraph poses sharedCal ms key init).1,
      ∃ c z, f = .triangulation c z (.unit 2) key) ∧
    (triangulationGraph poses sharedCal ms key init).2 = [(key, init)] ∧
    (triangulationGraphCam cameras ms2 key2 init2).1.length = ms2.length ∧
    (∀ i, i < ms2.length →
      (triangulationGraphCam cameras ms2 key2 init2).1.getD i default =
        .triangulation (cameras.getD i default) (ms2.getD i default)
          (.unit 2) key2) ∧
    (∀ f ∈ (triangulationGraphCam cameras ms2 key2 init2).1,
      ∃ c z, f = .triangulation c z (.unit 2) key2) ∧
    (triangulationGraphCam cameras ms2 key2 init2).2 = [(key2, init2)] := by
  refine ⟨by simp [triangulationGraph], fun i hi => ?_, fun f hf => ?_, rfl,
    by simp [triangulationGraphCam], fun i hi => ?_, fun f hf => ?_, rfl⟩
  · exact range_map_getD default ms.length i _ hi
  · simp only [triangulationGraph, List.mem_map] at hf
    obtain ⟨i, -, rfl⟩ := hf
    exact ⟨_, _, rfl⟩
  · exact range_map_getD default ms2.length i _ hi
  · simp only [triangulationGraphCam, List.mem_map] at hf
    obtain ⟨i, -, rfl⟩ := hf
    exact ⟨_, _, rfl⟩

/-- Witness for C9 at the two-camera fixture. -/
theorem triangulationGraph_spec_witness :
    (triangulationGraph [poseA, poseB] idCal [mA, mB] pKey cPoint).1.length =
      ([mA, mB] : List Vec2).length ∧
    (∀ i, i < ([mA, mB] : List Vec2).length →
      (triangulationGraph [poseA, poseB] idCal [mA, mB] pKey cPoint).1.getD i
          default =
        .triangulation ⟨[poseA, poseB].getD i default, idCal⟩
          (([mA, mB] : List Vec2).getD i default) (.unit 2) pKey) ∧
    (∀ f ∈ (triangulationGraph [poseA, poseB] idCal [mA, mB] pKey cPoint).1,
      ∃ c z, f = .triangulation c z (.unit 2) pKey) ∧
    (triangulationGraph [poseA, poseB] idCal [mA, mB] pKey cPoint).2 =
      [(pKey, cPoint)] ∧
    (triangulationGraphCam camsTwo [mA, mB] pKey cPoint).1.length =
      ([mA, mB] : List Vec2).length ∧
    (∀ i, i < ([mA, mB] : List Vec2).length →
      (triangulationGraphCam camsTwo [mA, mB] pKey cPoint).1.getD i default =
        .triangulation (camsTwo.getD i default)
          (([mA, mB] : List Vec2).getD i default) (.unit 2) pKey) ∧
    (∀ f ∈ (triangulationGraphCam camsTwo [mA, mB] pKey cPoint).1,
      ∃ c z, f = .triangulation c z (.unit 2) pKey) ∧
    (triangulationGraphCam camsTwo [mA, mB] pKey cPoint).2 = [(pKey, cPoint)] :=
  triangulationGraph_spec [poseA, poseB] idCal camsTwo [mA, mB] [mA, mB]
    pKey pKey cPoint cPoint

theorem any_pose_map (poses : List Pose3) (sharedCal : Calibration) (point : Vec3) :
    (poses.map fun pose => (⟨pose, sharedCal⟩ : PinholeCamera)).any
      (fun camera => decide (camera.pose.transform_to point 2 ≤ 0)) =
    poses.any fun pose => decide (pose.transform_to point 2 ≤ 0) := by
  induction poses with
  | nil => rfl
  | cons a l ih => simp only [List.map_cons, List.any_cons, ih]

/-- C10: running the per-camera overload on cameras that pair each pose with
the shared calibration yields the same outcome, point or typed failure, as
the shared-calibration overload on the poses. -/
theorem triangulatePoint3Cam_refines_shared
    (svdf : SVDFun) (opt : Optimizer) (flag optb : Bool) (poses : List Pose3)
    (sharedCal : Calibration) (ms : List Vec2) (rank_tol : ℚ)
    (hlen : ms.length ≤ poses.length) :
    triangulatePoint3Cam svdf opt flag
      (poses.map fun pose => ⟨pose, sharedCal⟩) ms rank_tol optb =
    triangulatePoint3 svdf opt flag poses sharedCal ms rank_tol optb := by
  have hproj : (poses.map fun pose => (⟨pose, sharedCal⟩ : PinholeCamera)).map
      (fun camera => CameraProjectionMatrix camera.calibration camera.pose) =
      poses.map fun pose => CameraProjectionMatrix sharedCal pose := by
    simp
  have hgraph : ∀ init : Vec3,
      triangulationGraphCam (poses.map fun pose => ⟨pose, sharedCal⟩) ms pKey init =
      triangulationGraph poses sharedCal ms pKey init := by
    intro init
    simp only [triangulationGraphCam, triangulationGraph]
    refine Prod.ext ?_ rfl
    refine List.map_congr_left fun i hi => ?_
    rw [List.mem_range] at hi
    rw [map_getD_of_lt poses _ default default i (lt_of_lt_of_le hi hlen)]
  have hnl : ∀ init : Vec3,
      triangulateNonlinearCam opt (poses.map fun pose => ⟨pose, sharedCal⟩) ms init =
      triangulateNonlinear opt poses sharedCal ms init := by
    intro init
    simp only [triangulateNonlinearCam, triangulateNonlinear, hgraph]
  have hany : ∀ point : Vec3,
      (poses.map fun pose => (⟨pose, sharedCal⟩ : PinholeCamera)).any
        (fun camera => decide (camera.pose.transform_to point 2 ≤ 0)) =
      poses.any fun pose => decide (pose.transform_to point 2 ≤ 0) :=
    any_pose_map poses sharedCal
  simp only [triangulatePoint3Cam, triangulatePoint3, List.length_map, hproj,
    hnl, hany]

/-- Witness for C10 at the two-camera fixture. -/
theorem triangulatePoint3Cam_refines_shared_witness :
    triangulatePoint3Cam svdTwo optConst true
      ([poseA, poseB].map fun pose => ⟨pose, idCal⟩) [mA, mB] tol9 false =
    triangulatePoint3 svdTwo optConst true [poseA, poseB] idCal [mA, mB] tol9
      false :=
  triangulatePoint3Cam_refines_shared svdTwo optConst true false [poseA, poseB]
    idCal [mA, mB] tol9 (by norm_num)

/-- C7: when refinement is requested and the optimizer reports a failure,
both triangulatePoint3 overloads propagate that failure and do not fall back
to the DLT result. -/
theorem triangulatePoint3_propagates_optimizer_failure
    (svdf : SVDFun) (opt : Optimizer) (flag flag2 : Bool) (poses : List Pose3)
    (sharedCal : Calibration) (cameras : List PinholeCamera)
    (ms ms2 : List Vec2) (rank_tol rank_tol2 : ℚ) (p0 q0 : Vec3)
    (e e2 : TriError)
    (hlen : ¬ poses.length < 2)
    (hdlt : triangulateDLT svdf
      (poses.map fun pose => CameraProjectionMatrix sharedCal pose) ms rank_tol =
      .ok p0)
    (hopt : triangulateNonlinear opt poses sharedCal ms p0 = .error e)
    (hlenC : ¬ cameras.length < 2)
    (hdltC : triangulateDLT svdf
      (cameras.map fun camera =>
        CameraProjectionMatrix camera.calibration camera.pose) ms2 rank_tol2 =
      .ok q0)
    (hoptC : triangulateNonlinearCam opt cameras ms2 q0 = .error e2) :
    triangulatePoint3 svdf opt flag poses sharedCal ms rank_tol true = .error e ∧
    triangulatePoint3Cam svdf opt flag2 cameras ms2 rank_tol2 true = .error e2 :=
  ⟨by simp [triangulatePoint3, hlen, hdlt, hopt],
   by simp [triangulatePoint3Cam, hlenC, hdltC, hoptC]⟩

/-- Witness for C7 at the two-camera fixture with a failing optimizer, for
both overloads. -/
theorem triangulatePoint3_propagates_optimizer_failure_witness :
    triangulatePoint3 svdTwo optFail true [poseA, poseB] idCal [mA, mB] tol9 true =
      .error .Underconstrained ∧
    triangulatePoint3Cam svdTwo optFail false camsTwo [mA, mB] tol9 true =
      .error .Underconstrained :=
  triangulatePoint3_propagates_optimizer_failure svdTwo optFail true false
    [poseA, poseB] idCal camsTwo [mA, mB] [mA, mB] tol9 tol9 cPoint cPoint
    .Underconstrained .Underconstrained
    (by norm_num)
    (by norm_num [triangulateDLT, triangulateHomogeneousDLT, dltRows, svdTwo,
      dehomogenize, tol9, vStar, cPoint, Fin.sum_univ_three, funext_iff,
      Fin.forall_fin_succ, CameraProjectionMatrix, idCal, idMat3, poseA, poseB,
      block34, Pose3.inverse, Pose3.matrix, Matrix.mul_apply, Fintype.sum_sum_type,
      Matrix.transpose_apply, Matrix.mulVec, Matrix.dotProduct, Matrix.fromBlocks,
      colVec, mA, mB])
    rfl
    (by norm_num [camsTwo])
    (by norm_num [triangulateDLT, triangulateHomogeneousDLT, dltRows, svdTwo,
      dehomogenize, tol9, vStar, cPoint, Fin.sum_univ_three, funext_iff,
      Fin.forall_fin_succ, CameraProjectionMatrix, idCal, idMat3, poseA, poseB,
      camsTwo, block34, Pose3.inverse, Pose3.matrix, Matrix.mul_apply,
      Fintype.sum_sum_type, Matrix.transpose_apply, Matrix.mulVec,
      Matrix.dotProduct, Matrix.fromBlocks, colVec, mA, mB])
    rfl
